import Mathlib

/-!
Verification of the email-validator backend: a shallow embedding of the
validation pipeline (routes-level `validateEmail`, `EmailVerifier.verify`,
the SMTP response state machine, the DMARC TXT parser, the sliding-window
rate limiter, and the bulk endpoint) together with theorems checking the
specification's claims against it.

Conventions of the embedding:
 - JavaScript strings are Lean `String`s; operations that the source uses
   (`split`, `startsWith`, `includes`, `endsWith`, truthiness of `""`,
   `x || d`, `x || null`) are modelled by the `js...` helpers below, which
   operate on the underlying character lists.
 - `Date.now()` timestamps are `Int` milliseconds; the template literal
   number-to-string conversion is modelled by a decimal printer.
 - Network and runtime effects (DNS TXT lookup results, the SMTP verifier
   outcome, the rate-limiter verdict, thrown exceptions) are passed to the
   embedded functions as explicit arguments; everything downstream of those
   arguments is the source's own logic, transcribed clause by clause.
-/

/-! JavaScript string primitives -/

/-- `s.split(c)` for a one-character separator: splits the character list at
every occurrence of `c`, keeping empty segments, like JS `String.split`. -/
def splitCharList (c : Char) : List Char → List (List Char)
  | [] => [[]]
  | x :: xs =>
    match splitCharList c xs with
    | [] => [[]]
    | h :: t => if x = c then [] :: h :: t else (x :: h) :: t

def jsSplit (s : String) (c : Char) : List String :=
  (splitCharList c s.data).map (fun l => String.mk l)

/-- JS `s.startsWith(p)`. -/
def jsStartsWith (s p : String) : Bool := p.data.isPrefixOf s.data

/-- JS `s.endsWith(p)`. -/
def jsEndsWith (s p : String) : Bool := p.data.isSuffixOf s.data

def containsSub (pat : List Char) : List Char → Bool
  | [] => pat.isEmpty
  | c :: rest => pat.isPrefixOf (c :: rest) || containsSub pat rest

/-- JS `s.includes(pat)`. -/
def jsIncludes (s pat : String) : Bool := containsSub pat.data s.data

/-- JS `o || d` where `o` is a string that may be `undefined`/`null`
(modelled as `none`); the empty string is falsy. -/
def jsOrStr (o : Option String) (d : String) : String :=
  match o with
  | none => d
  | some s => if s = "" then d else s

/-- JS `o || null` for a possibly absent string; `""` is falsy and becomes
`null`. -/
def jsOrNull (o : Option String) : Option String :=
  match o with
  | none => none
  | some s => if s = "" then none else some s

/-- Truthiness of a possibly absent string (`""`, `null`, `undefined` are
falsy). -/
def strTruthy : Option String → Bool
  | none => false
  | some s => !(s == "")

/-- Falsiness test `!x` for a possibly absent string. -/
def falsyStr : Option String → Bool
  | none => true
  | some s => s == ""

/-- Truthiness of a possibly absent boolean (`undefined` is falsy). -/
def truthyB (o : Option Bool) : Bool := o.getD false

/-- JS `s.toLowerCase()` (character-wise, as in the ASCII domains the
source compares). -/
def jsToLower (s : String) : String := String.mk (s.data.map Char.toLower)

/-- JS `s.trim()`: strip leading and trailing whitespace. -/
def jsTrim (s : String) : String :=
  String.mk (((s.data.dropWhile (fun c => c.isWhitespace)).reverse.dropWhile
    (fun c => c.isWhitespace)).reverse)

/-- Numeric value of a list of decimal digit characters. -/
def digitsVal (l : List Char) : Nat :=
  l.foldl (fun a c => a * 10 + (c.toNat - '0'.toNat)) 0

/-- JS `parseInt(s)` (radix 10): skip leading whitespace, optional sign,
read leading digits; `none` models `NaN`. -/
def jsParseInt (s : String) : Option Int :=
  let l := s.data.dropWhile (fun c => c.isWhitespace)
  match l with
  | '-' :: rest =>
    let ds := rest.takeWhile (fun c => c.isDigit)
    if ds.isEmpty then none else some (-(digitsVal ds : Int))
  | '+' :: rest =>
    let ds := rest.takeWhile (fun c => c.isDigit)
    if ds.isEmpty then none else some ((digitsVal ds : Int))
  | _ =>
    let ds := l.takeWhile (fun c => c.isDigit)
    if ds.isEmpty then none else some ((digitsVal ds : Int))

/-! Decimal printing of timestamps, modelling the template literal
number-to-string conversion in the rate-limiter key. -/

/-- Little-endian decimal digits of `n`; the first argument is fuel
(`n` itself suffices since the argument shrinks by division by 10). -/
def natDigitsAux : Nat → Nat → List Nat
  | 0, _ => []
  | _ + 1, 0 => []
  | fuel + 1, n + 1 => ((n + 1) % 10) :: natDigitsAux fuel ((n + 1) / 10)

def natDigits (n : Nat) : List Nat := natDigitsAux n n

def natDecStr (n : Nat) : String :=
  if n = 0 then "0" else String.mk (((natDigits n).map Nat.digitChar).reverse)

def intDecStr : Int → String
  | Int.ofNat n => natDecStr n
  | Int.negSucc n => "-" ++ natDecStr (n + 1)

/-! The syntax regex of the pipeline.  The source tests
`^[^\s@]+@[^\s@]+\.[^\s@]+$`.  A string matches exactly when it splits at
its first `@` into a nonempty run of non-space non-`@` characters and a
remainder that is nonempty, free of spaces and `@`, and has a `.` that is
neither its first nor its last character. -/

def okChar (c : Char) : Bool := !c.isWhitespace && !(c == '@')

def splitFirstAt (c : Char) : List Char → Option (List Char × List Char)
  | [] => none
  | x :: xs =>
    if x = c then some ([], xs)
    else (splitFirstAt c xs).map (fun p => (x :: p.1, p.2))

def interiorDot (l : List Char) : Bool :=
  match l with
  | [] => false
  | _ :: t => t.dropLast.contains '.'

def emailRegexTest (s : String) : Bool :=
  match splitFirstAt '@' s.data with
  | none => false
  | some (loc, rest) =>
    !loc.isEmpty && loc.all okChar && !rest.isEmpty && rest.all okChar && interiorDot rest

/-! Static tables (client/src/lib/validation.ts, server/email-verifier.ts,
and the free-provider list of the legacy validator in server/index.ts). -/

def disposableDomains : List String :=
  ["tempmail.com", "throwawaymail.com", "mailinator.com",
   "guerrillamail.com", "temp-mail.org", "fakeinbox.com"]

def isDisposableEmail (domain : String) : Bool :=
  disposableDomains.contains (jsToLower domain)

def CORPORATE_DOMAINS : List String :=
  ["amazon.com", "microsoft.com", "google.com", "apple.com", "facebook.com",
   "meta.com", "netflix.com", "oracle.com", "salesforce.com", "ibm.com",
   "intel.com", "cisco.com", "adobe.com", "vmware.com", "sap.com"]

def isCorporateDomain (domain : String) : Bool :=
  CORPORATE_DOMAINS.contains (jsToLower domain) ||
  jsEndsWith domain ".edu" || jsEndsWith domain ".gov"

def FREE_EMAIL_PROVIDERS : List String :=
  ["gmail.com", "yahoo.com", "hotmail.com", "outlook.com", "live.com",
   "aol.com", "mail.com", "protonmail.com", "icloud.com"]

/-! The SMTP response state machine (smtp-verifier, `verifySmtp`).  The
source drives a numeric `stage` counter through a `switch` in the socket
data handler; `smtpStep` is that switch, one invocation per received
response. -/

inductive VerificationError where
  | dns_error | connection_error | timeout_error | greeting_error | helo_error
  | mail_from_error | rcpt_to_error | mailbox_not_found | catch_all_detected
  | unknown_error
deriving DecidableEq

structure SmtpOutcome where
  valid : Bool
  error : Option VerificationError
  reason : Option String
  isCatchAll : Bool
deriving DecidableEq

inductive SmtpStep where
  | next (stage : Nat)
  | resolved (o : SmtpOutcome)
  | rejectedWith (code : VerificationError) (message : String)
  | ignored
deriving DecidableEq

def smtpStep (stage : Nat) (response : String) : SmtpStep :=
  match stage with
  | 0 =>
    if jsStartsWith response "220" then SmtpStep.next 1
    else SmtpStep.rejectedWith VerificationError.greeting_error
      "Server did not send proper greeting"
  | 1 =>
    if jsStartsWith response "250" then SmtpStep.next 2
    else SmtpStep.rejectedWith VerificationError.helo_error "HELO command failed"
  | 2 =>
    if jsStartsWith response "250" then SmtpStep.next 3
    else SmtpStep.rejectedWith VerificationError.mail_from_error
      "MAIL FROM command failed"
  | 3 =>
    if jsStartsWith response "250" then SmtpStep.next 4
    else if jsStartsWith response "550" || jsIncludes response "does not exist" then
      SmtpStep.resolved
        { valid := false, error := some VerificationError.mailbox_not_found,
          reason := some "Mailbox does not exist", isCatchAll := false }
    else SmtpStep.rejectedWith VerificationError.rcpt_to_error "RCPT TO command failed"
  | 4 =>
    if jsStartsWith response "250" then
      SmtpStep.resolved
        { valid := false, error := some VerificationError.catch_all_detected,
          reason := some "Catch-all domain detected", isCatchAll := true }
    else
      SmtpStep.resolved
        { valid := true, error := none,
          reason := some "Mailbox exists and is not a catch-all", isCatchAll := false }
  | _ => SmtpStep.ignored

/-! DMARC parsing (`EmailVerifier.getDmarcRecord`). -/

structure DmarcRecord where
  policy : String
  subdomainPolicy : Option String
  percentage : Option Int
  reportFormat : Option String
deriving DecidableEq

/-- JS `tag.split('=')[1]`. -/
def tagValueAt (tag : String) : Option String := (jsSplit tag '=').get? 1

def parseDmarcTags (record : String) : DmarcRecord :=
  let tags := (jsSplit record ';').map (fun t => jsTrim t)
  { policy := jsOrStr ((tags.find? (fun t => jsStartsWith t "p=")).bind tagValueAt) "none"
    subdomainPolicy := (tags.find? (fun t => jsStartsWith t "sp=")).bind tagValueAt
    percentage :=
      jsParseInt (jsOrStr ((tags.find? (fun t => jsStartsWith t "pct=")).bind tagValueAt) "100")
    reportFormat := (tags.find? (fun t => jsStartsWith t "rf=")).bind tagValueAt }

def findDmarcRecord : List (List String) → Option DmarcRecord
  | [] => none
  | recordSet :: rest =>
    let record := String.join recordSet
    if jsStartsWith record "v=DMARC1" then some (parseDmarcTags record)
    else findDmarcRecord rest

/-- `EmailVerifier.getDmarcRecord`, with the `resolveTxt` call's outcome as
an explicit argument: a failed lookup (the `catch` branch) is `Except.error`. -/
def getDmarcRecord (lookup : Except Unit (List (List String))) : Option DmarcRecord :=
  match lookup with
  | Except.error _ => none
  | Except.ok records => findDmarcRecord records

/-- Modelled from the spec (section 4.1, `lookupDmarc`): join each record's
segments without separator, take the first one beginning with `v=DMARC1`,
split it on `;`, trim each tag, and extract the fields by prefix; a missing
record or a failed lookup gives `null`.  Written for refinement comparison
with `getDmarcRecord`. -/
def lookupDmarcSpec (lookup : Except Unit (List (List String))) : Option DmarcRecord :=
  match lookup with
  | Except.error _ => none
  | Except.ok records =>
    ((records.map String.join).find? (fun r => jsStartsWith r "v=DMARC1")).map parseDmarcTags

/-! The sliding-window rate limiter (`EmailVerifier.checkRateLimit`).  The
process-wide `Map<string, number>` is an insertion-ordered association list;
`Map.set` replaces in place when the key exists, else appends. -/

abbrev RLMap := List (String × Int)

def RATE_LIMIT_WINDOW : Int := 3600000

def MAX_ATTEMPTS : Nat := 100

def mapSet (m : RLMap) (k : String) (v : Int) : RLMap :=
  if m.any (fun e => e.1 == k) then m.map (fun e => if e.1 == k then (k, v) else e)
  else m ++ [(k, v)]

/-- The clean-up loop: delete every entry whose timestamp is `< windowStart`. -/
def purgeOld (m : RLMap) (windowStart : Int) : RLMap :=
  m.filter (fun e => !decide (e.2 < windowStart))

/-- The entry key `ip + "_" + now` of the source's template literal. -/
def rlKey (ip : String) (now : Int) : String := ip ++ "_" ++ intDecStr now

def checkRateLimit (m : RLMap) (ip : String) (now : Int) : Bool × RLMap :=
  if ((purgeOld m (now - RATE_LIMIT_WINDOW)).filter
        (fun e => jsStartsWith e.1 ip && decide (e.2 > now - RATE_LIMIT_WINDOW))).length
      ≥ MAX_ATTEMPTS then
    (false, purgeOld m (now - RATE_LIMIT_WINDOW))
  else
    (true, mapSet (purgeOld m (now - RATE_LIMIT_WINDOW)) (rlKey ip now) now)

/-- Sequential `checkRateLimit` calls for one client at the given times;
returns the final map. -/
def runRL : RLMap → String → List Int → RLMap
  | m, _, [] => m
  | m, ip, t :: ts => runRL (checkRateLimit m ip t).2 ip ts

/-- `true` when every one of the sequential calls was admitted. -/
def allAdmitted : RLMap → String → List Int → Bool
  | _, _, [] => true
  | m, ip, t :: ts =>
    (checkRateLimit m ip t).1 && allAdmitted (checkRateLimit m ip t).2 ip ts

/-- The map an uninterrupted sequence of admitted calls produces: one entry
`(ip + "_" + t, t)` per call. -/
def entriesFor (ip : String) (ts : List Int) : RLMap :=
  ts.map (fun s => (rlKey ip s, s))

/-! `EmailVerifier.verify`.  Its effectful collaborators are arguments:
`rateAllowed` is the `checkRateLimit` verdict, `dmarcLookup` the raw
`resolveTxt` outcome fed to `getDmarcRecord`, `exc` a thrown exception
reaching the `catch` (with its message), and `smtp` the settled result of
`SmtpVerifier.verify` (which itself never rejects). -/

structure SmtpVerifyResult where
  valid : Bool
  error : Option VerificationError
  reason : Option String
  mxRecord : Option String
  isCatchAll : Bool
deriving DecidableEq

structure VerifResult where
  valid : Bool
  reason : Option String
  mxRecord : Option String
  dmarcPolicy : Option String
  isCorporate : Option Bool
  isCatchAll : Option Bool
deriving DecidableEq

/-- `email.split('@')[1]`, with `undefined` collapsed to `""` (only used on
inputs where the regex already guarantees the part exists). -/
def jsDomain (email : String) : String := ((jsSplit email '@').get? 1).getD ""

def jsAccount (email : String) : String := ((jsSplit email '@').get? 0).getD ""

def EmailVerifier_verify (email : String) (rateAllowed : Bool)
    (dmarcLookup : Except Unit (List (List String)))
    (exc : Option String) (smtp : SmtpVerifyResult) : VerifResult :=
  if !rateAllowed then
    { valid := false, reason := some "Rate limit exceeded", mxRecord := none,
      dmarcPolicy := none, isCorporate := none, isCatchAll := none }
  else if !emailRegexTest email then
    { valid := false, reason := some "Invalid email format", mxRecord := none,
      dmarcPolicy := none, isCorporate := none, isCatchAll := none }
  else
    match exc with
    | some msg =>
      { valid := false, reason := some (jsOrStr (some msg) "Verification failed"),
        mxRecord := none, dmarcPolicy := none, isCorporate := none, isCatchAll := none }
    | none =>
      if smtp.isCatchAll && isCorporateDomain (jsDomain email) then
        { valid := true,
          reason := some "Valid corporate email domain with catch-all configuration",
          mxRecord := smtp.mxRecord,
          dmarcPolicy := (getDmarcRecord dmarcLookup).map (fun r => r.policy),
          isCorporate := some true, isCatchAll := some true }
      else if !smtp.valid then
        { valid := false, reason := smtp.reason, mxRecord := smtp.mxRecord,
          dmarcPolicy := (getDmarcRecord dmarcLookup).map (fun r => r.policy),
          isCorporate := some (isCorporateDomain (jsDomain email)), isCatchAll := none }
      else
        { valid := true,
          reason := some (if isCorporateDomain (jsDomain email) then
                            "Valid corporate email address"
                          else "Valid email address"),
          mxRecord := smtp.mxRecord,
          dmarcPolicy := (getDmarcRecord dmarcLookup).map (fun r => r.policy),
          isCorporate := some (isCorporateDomain (jsDomain email)), isCatchAll := none }

/-! The routes-level pipeline (`validateEmail` of the registered routes file)
and its public result record. -/

structure ValidationResult where
  status : String
  subStatus : Option String
  freeEmail : String
  didYouMean : String
  account : String
  domain : String
  domainAgeDays : String
  smtpProvider : String
  mxFound : String
  mxRecord : Option String
  dmarcPolicy : Option String
  firstName : String
  lastName : String
  message : String
  isValid : Bool
deriving DecidableEq

/-- `part.charAt(0).toUpperCase() + part.slice(1).toLowerCase()`. -/
def capitalizeJs (s : String) : String :=
  match s.data with
  | [] => ""
  | c :: rest => String.mk (c.toUpper :: rest.map Char.toLower)

def extractNameFromEmail (email : String) : String × String :=
  let account := jsAccount email
  let replaced := String.mk (account.data.map
    (fun c => if c == '.' || c == '_' then ' ' else c))
  let nameParts := ((jsSplit replaced ' ').filter (fun p => !(p == ""))).map capitalizeJs
  if nameParts.length ≥ 2 then
    (nameParts.getD 0 "", " ".intercalate (nameParts.drop 1))
  else (jsOrStr (nameParts.get? 0) "Unknown", "Unknown")

def formatErrorRecord (account domain : String) : ValidationResult :=
  { status := "invalid", subStatus := some "format_error", freeEmail := "Unknown",
    didYouMean := "", account := account, domain := domain,
    domainAgeDays := "Unknown", smtpProvider := "Unknown", mxFound := "No",
    mxRecord := none, dmarcPolicy := none, firstName := "Unknown",
    lastName := "Unknown", message := "Invalid email format", isValid := false }

def disposableRecord (account domain firstName lastName : String) : ValidationResult :=
  { status := "invalid", subStatus := some "disposable", freeEmail := "No",
    didYouMean := "", account := account, domain := domain,
    domainAgeDays := "Unknown", smtpProvider := "Unknown", mxFound := "No",
    mxRecord := none, dmarcPolicy := none, firstName := firstName,
    lastName := lastName, message := "Disposable email addresses are not allowed",
    isValid := false }

def systemErrorRecord (msg : String) : ValidationResult :=
  { status := "error", subStatus := some "system_error", freeEmail := "Unknown",
    didYouMean := "", account := "Unknown", domain := "Unknown",
    domainAgeDays := "Unknown", smtpProvider := "Unknown", mxFound := "No",
    mxRecord := none, dmarcPolicy := none, firstName := "Unknown",
    lastName := "Unknown", message := msg, isValid := false }

/-- The routes-level `validateEmail`.  `outerExc` models an exception
reaching its own `try/catch` (the `status: "error"` path); everything else
is the source body in order: destructure on `@`, format check, name
extraction, disposable check, `EmailVerifier.verify`, status synthesis. -/
def validateEmail (email : String) (rateAllowed : Bool)
    (dmarcLookup : Except Unit (List (List String)))
    (exc : Option String) (smtp : SmtpVerifyResult)
    (outerExc : Option String) : ValidationResult :=
  match outerExc with
  | some msg => systemErrorRecord msg
  | none =>
    if falsyStr ((jsSplit email '@').get? 1) || falsyStr ((jsSplit email '@').get? 0) then
      formatErrorRecord (jsOrStr ((jsSplit email '@').get? 0) "")
        (jsOrStr ((jsSplit email '@').get? 1) "")
    else if isDisposableEmail (jsDomain email) then
      disposableRecord (jsAccount email) (jsDomain email)
        (extractNameFromEmail email).1 (extractNameFromEmail email).2
    else
      { status :=
          if truthyB (EmailVerifier_verify email rateAllowed dmarcLookup exc smtp).isCatchAll &&
             truthyB (EmailVerifier_verify email rateAllowed dmarcLookup exc smtp).isCorporate then
            "catch-all"
          else if (EmailVerifier_verify email rateAllowed dmarcLookup exc smtp).valid then "valid"
          else "invalid",
        subStatus := jsOrNull (EmailVerifier_verify email rateAllowed dmarcLookup exc smtp).reason,
        freeEmail := "No", didYouMean := "",
        account := jsAccount email, domain := jsDomain email, domainAgeDays := "Unknown",
        smtpProvider :=
          if strTruthy (EmailVerifier_verify email rateAllowed dmarcLookup exc smtp).mxRecord then
            (jsSplit (((EmailVerifier_verify email rateAllowed dmarcLookup exc smtp).mxRecord).getD "") '.').getD 0 ""
          else "Unknown",
        mxFound :=
          if strTruthy (EmailVerifier_verify email rateAllowed dmarcLookup exc smtp).mxRecord then
            "Yes"
          else "No",
        mxRecord := jsOrNull (EmailVerifier_verify email rateAllowed dmarcLookup exc smtp).mxRecord,
        dmarcPolicy := jsOrNull (EmailVerifier_verify email rateAllowed dmarcLookup exc smtp).dmarcPolicy,
        firstName := (extractNameFromEmail email).1,
        lastName := (extractNameFromEmail email).2,
        message := jsOrStr (EmailVerifier_verify email rateAllowed dmarcLookup exc smtp).reason
          (if (EmailVerifier_verify email rateAllowed dmarcLookup exc smtp).valid then
            "Valid email address"
          else "Invalid email address"),
        isValid := (EmailVerifier_verify email rateAllowed dmarcLookup exc smtp).valid }

/-- The crude destructuring check of `validateEmail` (`!domain || !account`
after `email.split("@")`), as a standalone predicate. -/
def splitCheckFails (email : String) : Bool :=
  falsyStr ((jsSplit email '@').get? 1) || falsyStr ((jsSplit email '@').get? 0)

/-- The `SmtpVerifier.verify` result for a conversation that reached the
catch-all probe and saw it accepted: `verifySmtp`'s catch-all resolution plus
the primary MX attached by the wrapper. -/
def smtpCatchAllResult (mx : String) : SmtpVerifyResult :=
  { valid := false, error := some VerificationError.catch_all_detected,
    reason := some "Catch-all domain detected", mxRecord := some mx,
    isCatchAll := true }

/-- An arbitrary settled SMTP result, used to instantiate environments. -/
def smtpArb : SmtpVerifyResult :=
  { valid := true, error := none, reason := none, mxRecord := none, isCatchAll := false }

/-- The `SmtpVerifier.verify` result for a mailbox that exists on a
non-catch-all host. -/
def smtpOkGmail : SmtpVerifyResult :=
  { valid := true, error := none,
    reason := some "Mailbox exists and is not a catch-all",
    mxRecord := some "gmail-smtp-in.l.google.com", isCatchAll := false }

/-! The bulk endpoint (`POST /api/validate-emails`). -/

structure BulkResult extends ValidationResult where
  email : String
deriving DecidableEq

/-- `results.map((result, index) => (... result, email: emails[index]))`:
the index is always in range, so the `getD` default is never consulted. -/
def attachEmails (emails : List String) : List ValidationResult → Nat → List BulkResult
  | [], _ => []
  | r :: rs, i =>
    { toValidationResult := r, email := emails.getD i "" } :: attachEmails emails rs (i + 1)

/-- The bulk route body: reject lists over 100 with the 400 message, run
each email through the pool (`run`; a rejected promise is caught into the
system-error record), then re-attach each input email by index.  The
per-email `email` field of the catch fallback is subsumed by the final
re-attachment, exactly as the spread in the source. -/
def validateBulk (emails : List String)
    (run : String → Except String ValidationResult) :
    Except String (List BulkResult) :=
  if emails.length > 100 then Except.error "Maximum 100 emails allowed per request"
  else
    let results := emails.map (fun e =>
      match run e with
      | Except.ok r => r
      | Except.error msg => systemErrorRecord msg)
    Except.ok (attachEmails emails results 0)

/-- A worker function whose every task fails, for concrete instantiation. -/
def wRun : String → Except String ValidationResult :=
  fun _ => Except.error "worker failed"

/-- A 100-entry rate-limiter map for one client, for concrete instantiation. -/
def wDenyMap : RLMap := entriesFor "9.9.9.9" ((List.range 100).map (fun n => (n : Int) + 1))

/-! Helper lemmas about the JS truthiness helpers and the pipeline's
branches. -/

theorem jsOrNull_ne_none_iff (o : Option String) : jsOrNull o ≠ none ↔ strTruthy o = true := by
  cases o with
  | none => simp [jsOrNull, strTruthy]
  | some s => by_cases hs : s = "" <;> simp [jsOrNull, strTruthy, hs]

theorem validateEmail_outerExc (email : String) (rl : Bool)
    (dl : Except Unit (List (List String))) (exc : Option String)
    (smtp : SmtpVerifyResult) (msg : String) :
    validateEmail email rl dl exc smtp (some msg) = systemErrorRecord msg := rfl

theorem validateEmail_splitFail (email : String) (rl : Bool)
    (dl : Except Unit (List (List String))) (exc : Option String)
    (smtp : SmtpVerifyResult) (h : splitCheckFails email = true) :
    validateEmail email rl dl exc smtp none =
      formatErrorRecord (jsOrStr ((jsSplit email '@').get? 0) "")
        (jsOrStr ((jsSplit email '@').get? 1) "") := by
  unfold validateEmail
  rw [show (falsyStr ((jsSplit email '@').get? 1) || falsyStr ((jsSplit email '@').get? 0))
        = true from h]
  simp

theorem validateEmail_disposable (email : String) (rl : Bool)
    (dl : Except Unit (List (List String))) (exc : Option String)
    (smtp : SmtpVerifyResult) (hsf : splitCheckFails email = false)
    (hd : isDisposableEmail (jsDomain email) = true) :
    validateEmail email rl dl exc smtp none =
      disposableRecord (jsAccount email) (jsDomain email)
        (extractNameFromEmail email).1 (extractNameFromEmail email).2 := by
  unfold validateEmail
  rw [show (falsyStr ((jsSplit email '@').get? 1) || falsyStr ((jsSplit email '@').get? 0))
        = false from hsf]
  simp [hd]

theorem validateEmail_live (email : String) (rl : Bool)
    (dl : Except Unit (List (List String))) (exc : Option String)
    (smtp : SmtpVerifyResult) (hsf : splitCheckFails email = false)
    (hd : isDisposableEmail (jsDomain email) = false) :
    validateEmail email rl dl exc smtp none =
      { status :=
          if truthyB (EmailVerifier_verify email rl dl exc smtp).isCatchAll &&
             truthyB (EmailVerifier_verify email rl dl exc smtp).isCorporate then "catch-all"
          else if (EmailVerifier_verify email rl dl exc smtp).valid then "valid"
          else "invalid",
        subStatus := jsOrNull (EmailVerifier_verify email rl dl exc smtp).reason,
        freeEmail := "No", didYouMean := "",
        account := jsAccount email, domain := jsDomain email, domainAgeDays := "Unknown",
        smtpProvider :=
          if strTruthy (EmailVerifier_verify email rl dl exc smtp).mxRecord then
            (jsSplit (((EmailVerifier_verify email rl dl exc smtp).mxRecord).getD "") '.').getD 0 ""
          else "Unknown",
        mxFound :=
          if strTruthy (EmailVerifier_verify email rl dl exc smtp).mxRecord then "Yes" else "No",
        mxRecord := jsOrNull (EmailVerifier_verify email rl dl exc smtp).mxRecord,
        dmarcPolicy := jsOrNull (EmailVerifier_verify email rl dl exc smtp).dmarcPolicy,
        firstName := (extractNameFromEmail email).1,
        lastName := (extractNameFromEmail email).2,
        message := jsOrStr (EmailVerifier_verify email rl dl exc smtp).reason
          (if (EmailVerifier_verify email rl dl exc smtp).valid then "Valid email address"
           else "Invalid email address"),
        isValid := (EmailVerifier_verify email rl dl exc smtp).valid } := by
  unfold validateEmail
  rw [show (falsyStr ((jsSplit email '@').get? 1) || falsyStr ((jsSplit email '@').get? 0))
        = false from hsf]
  simp [hd]

/-- C6: on every code path of the single-address pipeline, the produced
result record has `mxFound = "Yes"` exactly when its `mxRecord` is non-null. -/
theorem mxFound_iff_mxRecord (email : String) (rl : Bool)
    (dl : Except Unit (List (List String))) (exc : Option String)
    (smtp : SmtpVerifyResult) (outerExc : Option String) :
    ((validateEmail email rl dl exc smtp outerExc).mxFound = "Yes" ↔
      (validateEmail email rl dl exc smtp outerExc).mxRecord ≠ none) := by
  cases outerExc with
  | some msg => simp [validateEmail_outerExc, systemErrorRecord]
  | none =>
    by_cases hsf : splitCheckFails email = true
    · rw [validateEmail_splitFail email rl dl exc smtp hsf]
      simp [formatErrorRecord]
    · have hsf' : splitCheckFails email = false := by simpa using hsf
      by_cases hd : isDisposableEmail (jsDomain email) = true
      · rw [validateEmail_disposable email rl dl exc smtp hsf' hd]
        simp [disposableRecord]
      · have hd' : isDisposableEmail (jsDomain email) = false := by simpa using hd
        rw [validateEmail_live email rl dl exc smtp hsf' hd']
        by_cases hmx : strTruthy (EmailVerifier_verify email rl dl exc smtp).mxRecord = true
        · simp [hmx, (jsOrNull_ne_none_iff _).mpr hmx]
        · have hmx' : strTruthy (EmailVerifier_verify email rl dl exc smtp).mxRecord = false := by
            simpa using hmx
          have : ¬ jsOrNull (EmailVerifier_verify email rl dl exc smtp).mxRecord ≠ none := by
            rw [jsOrNull_ne_none_iff]
            simp [hmx']
          simp [hmx', this]

/-! Relating the regex matcher to `split('@')`. -/

theorem splitCharList_of_first_none {c : Char} {l : List Char}
    (h : splitFirstAt c l = none) : splitCharList c l = [l] := by
  induction l with
  | nil => rfl
  | cons x xs ih =>
    unfold splitFirstAt at h
    by_cases hx : x = c
    · simp [hx] at h
    · simp [hx] at h
      cases hsp : splitFirstAt c xs with
      | none => simp [splitCharList, ih hsp, hx]
      | some p => rw [hsp] at h; simp at h

theorem splitCharList_ne_nil (c : Char) (l : List Char) : splitCharList c l ≠ [] := by
  induction l with
  | nil => simp [splitCharList]
  | cons x xs ih =>
    unfold splitCharList
    cases h : splitCharList c xs with
    | nil => exact absurd h ih
    | cons h2 t2 => by_cases hx : x = c <;> simp [hx]

theorem splitFirstAt_cons (c x : Char) (xs : List Char) :
    splitFirstAt c (x :: xs) =
      if x = c then some ([], xs)
      else (splitFirstAt c xs).map (fun p => (x :: p.1, p.2)) := rfl

theorem splitCharList_cons (c x : Char) (xs : List Char) :
    splitCharList c (x :: xs) =
      match splitCharList c xs with
      | [] => [[]]
      | h :: t => if x = c then [] :: h :: t else (x :: h) :: t := rfl

theorem splitCharList_of_first_some {c : Char} {l a b : List Char}
    (h : splitFirstAt c l = some (a, b)) :
    splitCharList c l = a :: splitCharList c b := by
  induction l generalizing a with
  | nil => simp [splitFirstAt] at h
  | cons x xs ih =>
    rw [splitFirstAt_cons] at h
    by_cases hx : x = c
    · rw [if_pos hx] at h
      injection h with hpair
      injection hpair with h1 h2
      subst h1; subst h2
      obtain ⟨h2l, t2l, hs⟩ : ∃ u v, splitCharList c xs = u :: v := by
        cases hsx : splitCharList c xs with
        | nil => exact absurd hsx (splitCharList_ne_nil c xs)
        | cons u v => exact ⟨u, v, rfl⟩
      rw [splitCharList_cons, hs]
      simp [hx]
    · rw [if_neg hx] at h
      cases hsp : splitFirstAt c xs with
      | none => rw [hsp] at h; simp at h
      | some p =>
        obtain ⟨p1, p2⟩ := p
        rw [hsp] at h
        simp only [Option.map_some'] at h
        injection h with hpair
        injection hpair with h1 h2
        subst h1; subst h2
        have ihr := ih hsp
        rw [splitCharList_cons, ihr]
        simp [hx]

theorem splitFirstAt_none_of_all {c : Char} {l : List Char}
    (h : ∀ x ∈ l, ¬ x = c) : splitFirstAt c l = none := by
  induction l with
  | nil => rfl
  | cons x xs ih =>
    unfold splitFirstAt
    have hx : ¬ x = c := h x (by simp)
    simp [hx]
    exact ih (fun y hy => h y (by simp [hy]))

theorem mk_ne_empty {l : List Char} (h : l ≠ []) : String.mk l ≠ "" := by
  intro hmk; exact h (congrArg String.data hmk)

/-- A regex-matching address splits at `@` into exactly two nonempty parts. -/
theorem emailRegex_parts {email : String} (h : emailRegexTest email = true) :
    ∃ loc rest : List Char,
      splitFirstAt '@' email.data = some (loc, rest) ∧ loc ≠ [] ∧ rest ≠ [] ∧
      jsSplit email '@' = [String.mk loc, String.mk rest] := by
  unfold emailRegexTest at h
  cases hsp : splitFirstAt '@' email.data with
  | none => rw [hsp] at h; simp at h
  | some p =>
    obtain ⟨loc, rest⟩ := p
    rw [hsp] at h
    simp only [Bool.and_eq_true] at h
    obtain ⟨⟨⟨⟨hloc, hlocok⟩, hrest⟩, hrestok⟩, hdot⟩ := h
    refine ⟨loc, rest, rfl, ?_, ?_, ?_⟩
    · simpa using hloc
    · simpa using hrest
    · have hnone : splitFirstAt '@' rest = none := by
        apply splitFirstAt_none_of_all
        intro x hx
        have := (List.all_eq_true.mp hrestok) x hx
        simp [okChar] at this
        exact this.2
      unfold jsSplit
      rw [splitCharList_of_first_some hsp, splitCharList_of_first_none hnone]
      rfl

theorem emailRegex_splitCheck {email : String} (h : emailRegexTest email = true) :
    splitCheckFails email = false := by
  obtain ⟨loc, rest, _, hloc, hrest, hsplit⟩ := emailRegex_parts h
  unfold splitCheckFails
  rw [hsplit]
  simp [falsyStr]
  constructor
  · simpa using mk_ne_empty hrest
  · simpa using mk_ne_empty hloc

/-- C1 (amended): for an address that reaches SMTP and whose probe reports
catch-all, the pipeline returns status `catch-all` with `isValid = true`
when `isCorporateDomain(domain)` holds, and status `invalid` with
`isValid = false` and `subStatus` equal to the reason string
`Catch-all domain detected` (not a `catch_all_detected` tag) when the
domain is not corporate. -/
theorem catchAll_policy_by_corporate (email : String)
    (dl : Except Unit (List (List String))) (mx : String)
    (hre : emailRegexTest email = true)
    (hdisp : isDisposableEmail (jsDomain email) = false) :
    (isCorporateDomain (jsDomain email) = true →
      (validateEmail email true dl none (smtpCatchAllResult mx) none).status = "catch-all" ∧
      (validateEmail email true dl none (smtpCatchAllResult mx) none).isValid = true) ∧
    (isCorporateDomain (jsDomain email) = false →
      (validateEmail email true dl none (smtpCatchAllResult mx) none).status = "invalid" ∧
      (validateEmail email true dl none (smtpCatchAllResult mx) none).isValid = false ∧
      (validateEmail email true dl none (smtpCatchAllResult mx) none).subStatus =
        some "Catch-all domain detected") := by
  have hsf := emailRegex_splitCheck hre
  rw [validateEmail_live email true dl none (smtpCatchAllResult mx) hsf hdisp]
  constructor
  · intro hcorp
    simp [EmailVerifier_verify, smtpCatchAllResult, hre, hcorp, truthyB]
  · intro hcorp
    simp [EmailVerifier_verify, smtpCatchAllResult, hre, hcorp, truthyB, jsOrNull]

/-- C1 witness: a corporate-domain catch-all result is reported as a valid
catch-all. -/
theorem catchAll_policy_witness :
    (validateEmail "user@microsoft.com" true (Except.error ())
        none (smtpCatchAllResult "mx1.hot.com") none).status = "catch-all" ∧
    (validateEmail "user@microsoft.com" true (Except.error ())
        none (smtpCatchAllResult "mx1.hot.com") none).isValid = true :=
  (catchAll_policy_by_corporate "user@microsoft.com" (Except.error ())
      "mx1.hot.com" (by decide) (by decide)).1 (by decide)

/-- C1 counterexample: a non-corporate catch-all gets the human-readable
reason string as its `subStatus`, not the claimed `catch_all_detected`
tag. -/
theorem catchAll_noncorporate_substatus_counterexample :
    (validateEmail "user@example.xyz" true (Except.error ())
        none (smtpCatchAllResult "mx.example.xyz") none).status = "invalid" ∧
    (validateEmail "user@example.xyz" true (Except.error ())
        none (smtpCatchAllResult "mx.example.xyz") none).subStatus =
      some "Catch-all domain detected" ∧
    (validateEmail "user@example.xyz" true (Except.error ())
        none (smtpCatchAllResult "mx.example.xyz") none).subStatus ≠
      some "catch_all_detected" := by decide

/-- C2 (amended): an input that fails the syntax regex gets status
`invalid`; its `subStatus` is `format_error` exactly when the cruder
destructuring check (`!domain || !account` after `split('@')`) also fails;
when the destructuring succeeds (e.g. `a@b`) and the domain is not
disposable, the `subStatus` is instead the verifier's reason string —
`Invalid email format` when the rate limiter admits the request, or
`Rate limit exceeded` when it does not. -/
theorem regexFail_status_substatus (email : String) (rl : Bool)
    (dl : Except Unit (List (List String))) (exc : Option String)
    (smtp : SmtpVerifyResult) (h : emailRegexTest email = false) :
    (validateEmail email rl dl exc smtp none).status = "invalid" ∧
    (splitCheckFails email = true →
      (validateEmail email rl dl exc smtp none).subStatus = some "format_error") ∧
    (splitCheckFails email = false → isDisposableEmail (jsDomain email) = false →
      (validateEmail email rl dl exc smtp none).subStatus =
        some (if rl then "Invalid email format" else "Rate limit exceeded")) := by
  by_cases hsf : splitCheckFails email = true
  · rw [validateEmail_splitFail email rl dl exc smtp hsf]
    refine ⟨rfl, fun _ => rfl, fun hc => absurd hsf (by simp [hc])⟩
  · have hsf' : splitCheckFails email = false := by simpa using hsf
    by_cases hd : isDisposableEmail (jsDomain email) = true
    · rw [validateEmail_disposable email rl dl exc smtp hsf' hd]
      refine ⟨rfl, fun hc => absurd hsf' (by simp [hc]), fun _ hc => absurd hd (by simp [hc])⟩
    · have hd' : isDisposableEmail (jsDomain email) = false := by simpa using hd
      rw [validateEmail_live email rl dl exc smtp hsf' hd']
      cases rl with
      | false =>
        refine ⟨?_, fun hc => absurd hsf' (by simp [hc]), fun _ _ => ?_⟩
        · simp [EmailVerifier_verify, truthyB]
        · simp [EmailVerifier_verify, jsOrNull]
      | true =>
        refine ⟨?_, fun hc => absurd hsf' (by simp [hc]), fun _ _ => ?_⟩
        · simp [EmailVerifier_verify, h, truthyB]
        · simp [EmailVerifier_verify, h, jsOrNull]

/-- C2 witness: the regex-failing input `@x` (empty account) takes the
`format_error` path. -/
theorem regexFail_witness :
    (validateEmail "@x" true (Except.error ()) none smtpArb none).status = "invalid" ∧
    (validateEmail "@x" true (Except.error ()) none smtpArb none).subStatus =
      some "format_error" :=
  ⟨(regexFail_status_substatus "@x" true (Except.error ()) none smtpArb (by decide)).1,
   (regexFail_status_substatus "@x" true (Except.error ()) none smtpArb (by decide)).2.1
     (by decide)⟩

/-- C2 counterexample: `a@b` fails the regex but passes the destructuring
check, so its record carries `subStatus = "Invalid email format"`, not the
claimed `format_error`. -/
theorem regexFail_counterexample :
    emailRegexTest "a@b" = false ∧
    (validateEmail "a@b" true (Except.error ()) none smtpArb none).status = "invalid" ∧
    (validateEmail "a@b" true (Except.error ()) none smtpArb none).subStatus =
      some "Invalid email format" ∧
    (validateEmail "a@b" true (Except.error ()) none smtpArb none).subStatus ≠
      some "format_error" := by decide

/-- C7 (amended): the pipeline never reports `freeEmail = "Yes"`: the field
is the literal `"No"` on every path where the domain was parsed (including
disposable rejections), and `"Unknown"` on the destructuring-failure and
system-error paths; the free-provider table is never consulted. -/
theorem freeEmail_never_yes (email : String) (rl : Bool)
    (dl : Except Unit (List (List String))) (exc : Option String)
    (smtp : SmtpVerifyResult) (outerExc : Option String) :
    ((validateEmail email rl dl exc smtp outerExc).freeEmail = "No" ∨
     (validateEmail email rl dl exc smtp outerExc).freeEmail = "Unknown") ∧
    (outerExc = none → splitCheckFails email = false →
      (validateEmail email rl dl exc smtp outerExc).freeEmail = "No") ∧
    (outerExc = none → splitCheckFails email = true →
      (validateEmail email rl dl exc smtp outerExc).freeEmail = "Unknown") ∧
    (∀ msg, outerExc = some msg →
      (validateEmail email rl dl exc smtp outerExc).freeEmail = "Unknown") := by
  cases outerExc with
  | some msg =>
    refine ⟨Or.inr rfl, fun hc => by simp at hc, fun hc => by simp at hc, fun _ _ => rfl⟩
  | none =>
    by_cases hsf : splitCheckFails email = true
    · rw [validateEmail_splitFail email rl dl exc smtp hsf]
      exact ⟨Or.inr rfl, fun _ hc => absurd hsf (by simp [hc]), fun _ _ => rfl,
        fun _ hc => by simp at hc⟩
    · have hsf' : splitCheckFails email = false := by simpa using hsf
      have hno : (validateEmail email rl dl exc smtp none).freeEmail = "No" := by
        by_cases hd : isDisposableEmail (jsDomain email) = true
        · rw [validateEmail_disposable email rl dl exc smtp hsf' hd]; rfl
        · have hd' : isDisposableEmail (jsDomain email) = false := by simpa using hd
          rw [validateEmail_live email rl dl exc smtp hsf' hd']
      exact ⟨Or.inl hno, fun _ _ => hno, fun _ hc => absurd hsf' (by simp [hc]),
        fun _ hc => by simp at hc⟩

/-- C7 witness: a known-domain verification reports `freeEmail = "No"`. -/
theorem freeEmail_witness :
    (validateEmail "user@gmail.com" true (Except.error ()) none smtpOkGmail none).freeEmail
      = "No" :=
  (freeEmail_never_yes "user@gmail.com" true (Except.error ()) none smtpOkGmail none).2.1
    rfl (by decide)

/-- C7 counterexample: `gmail.com` is in the known free-provider set, yet
the record for a gmail address carries `freeEmail = "No"`, never the
claimed `"Yes"`. -/
theorem freeEmail_counterexample :
    FREE_EMAIL_PROVIDERS.contains "gmail.com" = true ∧
    (validateEmail "john@gmail.com" true (Except.error ()) none smtpOkGmail none).domain
      = "gmail.com" ∧
    (validateEmail "john@gmail.com" true (Except.error ()) none smtpOkGmail none).freeEmail
      ≠ "Yes" := by decide

/-- C3 (amended): in the RCPT TO stage (case 3 of the response switch), a
`250` reply advances to the catch-all probe; a reply starting with `550` or
containing `does not exist` resolves as mailbox-not-found; every other
reply — including `551`, `553`, `501`, `504`, `511` and `554` — rejects
with the RCPT TO error. -/
theorem rcptTo_stage_behaviour (response : String) :
    (jsStartsWith response "250" = true → smtpStep 3 response = SmtpStep.next 4) ∧
    (jsStartsWith response "250" = false →
      (jsStartsWith response "550" = true ∨ jsIncludes response "does not exist" = true) →
      smtpStep 3 response = SmtpStep.resolved
        { valid := false, error := some VerificationError.mailbox_not_found,
          reason := some "Mailbox does not exist", isCatchAll := false }) ∧
    (jsStartsWith response "250" = false → jsStartsWith response "550" = false →
      jsIncludes response "does not exist" = false →
      smtpStep 3 response = SmtpStep.rejectedWith VerificationError.rcpt_to_error
        "RCPT TO command failed") := by
  refine ⟨fun h250 => ?_, fun h250 h55 => ?_, fun h250 h550 hinc => ?_⟩
  · simp [smtpStep, h250]
  · rcases h55 with h550 | hinc
    · simp [smtpStep, h250, h550]
    · simp [smtpStep, h250, hinc]
  · simp [smtpStep, h250, h550, hinc]

/-- C3 witness: a `250` reply at the RCPT TO stage advances to the
catch-all probe. -/
theorem rcptTo_stage_witness : smtpStep 3 "250 2.1.5 Ok" = SmtpStep.next 4 :=
  (rcptTo_stage_behaviour "250 2.1.5 Ok").1 (by decide)

/-- C3 counterexample: a `551` reply is not resolved as mailbox-not-found
as claimed; it rejects with the generic RCPT TO error. -/
theorem rcptTo_551_counterexample :
    jsStartsWith "551 User not local" "551" = true ∧
    smtpStep 3 "551 User not local" =
      SmtpStep.rejectedWith VerificationError.rcpt_to_error "RCPT TO command failed" ∧
    smtpStep 3 "551 User not local" ≠ SmtpStep.resolved
      { valid := false, error := some VerificationError.mailbox_not_found,
        reason := some "Mailbox does not exist", isCatchAll := false } := by decide

/-! The decimal printer is injective, so distinct timestamps give distinct
rate-limiter keys. -/

theorem natDigitsAux_val (fuel : Nat) : ∀ n : Nat, n ≤ fuel →
    (natDigitsAux fuel n).foldr (fun d acc => d + 10 * acc) 0 = n := by
  induction fuel with
  | zero =>
    intro n h
    have : n = 0 := by omega
    subst this; rfl
  | succ f ih =>
    intro n h
    match n with
    | 0 => rfl
    | m + 1 =>
      have hle : (m + 1) / 10 ≤ f := by
        have := Nat.div_lt_self (Nat.succ_pos m) (by omega : 1 < 10)
        omega
      simp only [natDigitsAux, List.foldr]
      rw [ih _ hle]
      omega

theorem natDigits_val (n : Nat) :
    (natDigits n).foldr (fun d acc => d + 10 * acc) 0 = n :=
  natDigitsAux_val n n le_rfl

theorem natDigits_injective {a b : Nat} (h : natDigits a = natDigits b) : a = b := by
  have ha := natDigits_val a
  rw [h, natDigits_val b] at ha
  omega

theorem natDigitsAux_lt_ten (fuel : Nat) : ∀ n d, d ∈ natDigitsAux fuel n → d < 10 := by
  induction fuel with
  | zero => intro n d h; simp [natDigitsAux] at h
  | succ f ih =>
    intro n d h
    match n with
    | 0 => simp [natDigitsAux] at h
    | m + 1 =>
      simp only [natDigitsAux, List.mem_cons] at h
      rcases h with h | h
      · omega
      · exact ih _ d h

theorem digitChar_inj_fin : ∀ a b : Fin 10, Nat.digitChar a.val = Nat.digitChar b.val → a = b := by
  decide

theorem digitChar_inj_lt {a b : Nat} (ha : a < 10) (hb : b < 10)
    (h : Nat.digitChar a = Nat.digitChar b) : a = b :=
  congrArg Fin.val (digitChar_inj_fin ⟨a, ha⟩ ⟨b, hb⟩ h)

theorem digitChar_ne_dash (n : Nat) : Nat.digitChar n ≠ '-' := by
  rcases Nat.lt_or_ge n 16 with h16 | h16
  · have hd : ∀ m : Fin 16, Nat.digitChar m.val ≠ '-' := by decide
    exact hd ⟨n, h16⟩
  · have hstar : Nat.digitChar n = '*' := by
      unfold Nat.digitChar
      repeat rw [if_neg (by omega)]
    rw [hstar]; decide

theorem map_digitChar_inj : ∀ (l1 l2 : List Nat), (∀ x ∈ l1, x < 10) →
    (∀ x ∈ l2, x < 10) → l1.map Nat.digitChar = l2.map Nat.digitChar → l1 = l2 := by
  intro l1
  induction l1 with
  | nil =>
    intro l2 _ _ h
    cases l2 with
    | nil => rfl
    | cons y ys => simp at h
  | cons x xs ih =>
    intro l2 h1 h2 h
    cases l2 with
    | nil => simp at h
    | cons y ys =>
      simp only [List.map_cons, List.cons.injEq] at h
      obtain ⟨hxy, hrest⟩ := h
      have hx : x = y := digitChar_inj_lt (h1 x (by simp)) (h2 y (by simp)) hxy
      have hxs : xs = ys := ih ys (fun z hz => h1 z (by simp [hz]))
        (fun z hz => h2 z (by simp [hz])) hrest
      rw [hx, hxs]

theorem dataEqString {a b : String} (h : a.data = b.data) : a = b := by
  cases a; cases b; simp_all

theorem dash_not_mem_natDecStr (n : Nat) : '-' ∉ (natDecStr n).data := by
  unfold natDecStr
  by_cases hn : n = 0
  · rw [if_pos hn]; decide
  · rw [if_neg hn]
    intro hmem
    simp only [List.mem_reverse, List.mem_map] at hmem
    obtain ⟨d, _, hd⟩ := hmem
    exact digitChar_ne_dash d hd

theorem natDecStr_nonzero_digits {n : Nat} (hn : n ≠ 0) :
    (natDecStr n).data = ((natDigits n).map Nat.digitChar).reverse := by
  unfold natDecStr
  rw [if_neg hn]

theorem natDecStr_inj {a b : Nat} (h : natDecStr a = natDecStr b) : a = b := by
  by_cases ha : a = 0 <;> by_cases hb : b = 0
  · omega
  · exfalso
    have hd := congrArg String.data h
    rw [show natDecStr a = "0" by unfold natDecStr; rw [if_pos ha]] at hd
    rw [natDecStr_nonzero_digits hb] at hd
    have hmap : (natDigits b).map Nat.digitChar = ['0'] := by
      have := congrArg List.reverse hd
      simpa using this.symm
    cases hdig : natDigits b with
    | nil => rw [hdig] at hmap; simp at hmap
    | cons d rest =>
      rw [hdig] at hmap
      cases rest with
      | nil =>
        simp only [List.map_cons, List.map_nil, List.cons.injEq] at hmap
        have hd10 : d < 10 := natDigitsAux_lt_ten b b d (by rw [show natDigitsAux b b = natDigits b from rfl, hdig]; simp)
        have : d = 0 := digitChar_inj_lt hd10 (by omega) (by rw [hmap.1]; rfl)
        have hv := natDigits_val b
        rw [hdig, this] at hv
        simp at hv
        exact hb hv.symm
      | cons d2 rest2 => simp at hmap
  · exfalso
    have hd := congrArg String.data h
    rw [show natDecStr b = "0" by unfold natDecStr; rw [if_pos hb]] at hd
    rw [natDecStr_nonzero_digits ha] at hd
    have hmap : (natDigits a).map Nat.digitChar = ['0'] := by
      have := congrArg List.reverse hd
      simpa using this
    cases hdig : natDigits a with
    | nil => rw [hdig] at hmap; simp at hmap
    | cons d rest =>
      rw [hdig] at hmap
      cases rest with
      | nil =>
        simp only [List.map_cons, List.map_nil, List.cons.injEq] at hmap
        have hd10 : d < 10 := natDigitsAux_lt_ten a a d (by rw [show natDigitsAux a a = natDigits a from rfl, hdig]; simp)
        have : d = 0 := digitChar_inj_lt hd10 (by omega) (by rw [hmap.1]; rfl)
        have hv := natDigits_val a
        rw [hdig, this] at hv
        simp at hv
        exact ha hv.symm
      | cons d2 rest2 => simp at hmap
  · have hd := congrArg String.data h
    rw [natDecStr_nonzero_digits ha, natDecStr_nonzero_digits hb] at hd
    have hrev := List.reverse_injective hd
    have hdig := map_digitChar_inj (natDigits a) (natDigits b)
      (natDigitsAux_lt_ten a a) (natDigitsAux_lt_ten b b) hrev
    exact natDigits_injective hdig

theorem stringAppendData (a b : String) : (a ++ b).data = a.data ++ b.data := by
  cases a; cases b; rfl

theorem intDecStr_inj : Function.Injective intDecStr := by
  intro a b h
  match a, b with
  | Int.ofNat n, Int.ofNat m =>
    exact congrArg Int.ofNat (natDecStr_inj h)
  | Int.negSucc n, Int.negSucc m =>
    have hd := congrArg String.data h
    rw [show intDecStr (Int.negSucc n) = "-" ++ natDecStr (n + 1) from rfl,
        show intDecStr (Int.negSucc m) = "-" ++ natDecStr (m + 1) from rfl,
        stringAppendData, stringAppendData] at hd
    have h2 : (natDecStr (n + 1)).data = (natDecStr (m + 1)).data :=
      List.append_cancel_left hd
    have hsucc := natDecStr_inj (dataEqString h2)
    have hnm : n = m := by omega
    rw [hnm]
  | Int.ofNat n, Int.negSucc m =>
    exfalso
    have hd := congrArg String.data h
    rw [show intDecStr (Int.negSucc m) = "-" ++ natDecStr (m + 1) from rfl,
        stringAppendData] at hd
    have : '-' ∈ (natDecStr n).data := by
      rw [show intDecStr (Int.ofNat n) = natDecStr n from rfl] at hd
      rw [hd]
      simp [show ("-" : String).data = ['-'] from rfl]
    exact dash_not_mem_natDecStr n this
  | Int.negSucc n, Int.ofNat m =>
    exfalso
    have hd := congrArg String.data h
    rw [show intDecStr (Int.negSucc n) = "-" ++ natDecStr (n + 1) from rfl,
        show intDecStr (Int.ofNat m) = natDecStr m from rfl,
        stringAppendData] at hd
    have : '-' ∈ (natDecStr m).data := by
      rw [← hd]
      simp [show ("-" : String).data = ['-'] from rfl]
    exact dash_not_mem_natDecStr m this

theorem isPrefixOf_append_self (l x : List Char) : l.isPrefixOf (l ++ x) = true := by
  induction l with
  | nil => simp [List.isPrefixOf]
  | cons a as ih => simp [List.isPrefixOf, ih]

theorem rlKey_startsWith_self (ip : String) (t : Int) :
    jsStartsWith (rlKey ip t) ip = true := by
  unfold jsStartsWith rlKey
  rw [stringAppendData, stringAppendData, List.append_assoc]
  exact isPrefixOf_append_self _ _

theorem rlKey_inj (ip : String) {a b : Int} (h : rlKey ip a = rlKey ip b) : a = b := by
  unfold rlKey at h
  have hd := congrArg String.data h
  rw [stringAppendData, stringAppendData, stringAppendData, stringAppendData,
      List.append_assoc, List.append_assoc] at hd
  have h2 := List.append_cancel_left hd
  have h3 := List.append_cancel_left h2
  exact intDecStr_inj (dataEqString h3)

/-! Behaviour of one `checkRateLimit` call on a map of live entries for one
client. -/

theorem mapSet_append (m : RLMap) (k : String) (v : Int)
    (h : ∀ e ∈ m, e.1 ≠ k) : mapSet m k v = m ++ [(k, v)] := by
  unfold mapSet
  have hany : m.any (fun e => e.1 == k) = false := by
    rw [List.any_eq_false]
    intro e he
    simpa using h e he
  rw [hany]
  simp

theorem purge_keeps (ip : String) (ts : List Int) (ws : Int)
    (h : ∀ s ∈ ts, ¬ s < ws) : purgeOld (entriesFor ip ts) ws = entriesFor ip ts := by
  unfold purgeOld
  apply List.filter_eq_self.mpr
  intro e he
  obtain ⟨s, hs, rfl⟩ := List.mem_map.mp he
  simpa using h s hs

theorem purge_drops (ip : String) (ts : List Int) (ws : Int)
    (h : ∀ s ∈ ts, s < ws) : purgeOld (entriesFor ip ts) ws = [] := by
  unfold purgeOld
  rw [List.filter_eq_nil_iff]
  intro e he
  obtain ⟨s, hs, rfl⟩ := List.mem_map.mp he
  simp [h s hs]

theorem filter_live (ip : String) (ts : List Int) (ws : Int)
    (h : ∀ s ∈ ts, ws < s) :
    (entriesFor ip ts).filter (fun e => jsStartsWith e.1 ip && decide (e.2 > ws))
      = entriesFor ip ts := by
  apply List.filter_eq_self.mpr
  intro e he
  obtain ⟨s, hs, rfl⟩ := List.mem_map.mp he
  simp [rlKey_startsWith_self, h s hs]

theorem checkRateLimit_admit (ip : String) (pre : List Int) (t : Int)
    (hlive : ∀ s ∈ pre, t - RATE_LIMIT_WINDOW < s)
    (hlt : ∀ s ∈ pre, s < t) (hlen : pre.length < 100) :
    checkRateLimit (entriesFor ip pre) ip t = (true, entriesFor ip (pre ++ [t])) := by
  unfold checkRateLimit
  rw [purge_keeps ip pre _ (fun s hs => by have := hlive s hs; omega)]
  rw [filter_live ip pre _ (fun s hs => hlive s hs)]
  have hcond : ¬ ((entriesFor ip pre).length ≥ MAX_ATTEMPTS) := by
    unfold entriesFor MAX_ATTEMPTS
    rw [List.length_map]
    omega
  rw [if_neg hcond]
  have hnew : ∀ e ∈ entriesFor ip pre, e.1 ≠ rlKey ip t := by
    intro e he
    obtain ⟨s, hs, rfl⟩ := List.mem_map.mp he
    intro hk
    exact absurd (rlKey_inj ip hk) (by have := hlt s hs; omega)
  rw [mapSet_append _ _ _ hnew]
  unfold entriesFor
  rw [List.map_append]
  rfl

theorem checkRateLimit_full (ip : String) (pre : List Int) (t : Int)
    (hlive : ∀ s ∈ pre, t - RATE_LIMIT_WINDOW < s) (hlen : 100 ≤ pre.length) :
    checkRateLimit (entriesFor ip pre) ip t = (false, entriesFor ip pre) := by
  unfold checkRateLimit
  rw [purge_keeps ip pre _ (fun s hs => by have := hlive s hs; omega)]
  rw [filter_live ip pre _ (fun s hs => hlive s hs)]
  have hcond : (entriesFor ip pre).length ≥ MAX_ATTEMPTS := by
    unfold entriesFor MAX_ATTEMPTS
    rw [List.length_map]
    omega
  rw [if_pos hcond]

theorem checkRateLimit_expired (ip : String) (pre : List Int) (t : Int)
    (hold : ∀ s ∈ pre, s < t - RATE_LIMIT_WINDOW) :
    (checkRateLimit (entriesFor ip pre) ip t).1 = true := by
  unfold checkRateLimit
  rw [purge_drops ip pre _ hold]
  simp [MAX_ATTEMPTS]

/-- The run invariant: starting from the entries of already admitted calls,
a strictly increasing sequence of at most 100 calls whose spread stays
inside one window is admitted in full and appends one entry per call. -/
theorem runRL_invariant (ip : String) : ∀ (ts pre : List Int),
    List.Pairwise (fun a b => a < b) (pre ++ ts) →
    (∀ u ∈ pre ++ ts, ∀ s ∈ pre ++ ts, u - RATE_LIMIT_WINDOW < s) →
    (pre ++ ts).length ≤ 100 →
    runRL (entriesFor ip pre) ip ts = entriesFor ip (pre ++ ts) ∧
    allAdmitted (entriesFor ip pre) ip ts = true := by
  intro ts
  induction ts with
  | nil => intro pre _ _ _; simp [runRL, allAdmitted]
  | cons t rest ih =>
    intro pre hpw hwin hlen
    have htmem : t ∈ pre ++ t :: rest := by simp
    have hlive : ∀ s ∈ pre, t - RATE_LIMIT_WINDOW < s := fun s hs =>
      hwin t htmem s (by simp [hs])
    have hlt : ∀ s ∈ pre, s < t := by
      intro s hs
      have hp := List.pairwise_append.mp hpw
      exact hp.2.2 s hs t (by simp)
    have hlen1 : pre.length < 100 := by
      simp only [List.length_append, List.length_cons] at hlen
      omega
    have hstep := checkRateLimit_admit ip pre t hlive hlt hlen1
    have hre : (pre ++ [t]) ++ rest = pre ++ t :: rest := by simp
    have ihx := ih (pre ++ [t]) (by rw [hre]; exact hpw) (by rw [hre]; exact hwin)
      (by rw [hre]; exact hlen)
    constructor
    · have hr : runRL (entriesFor ip pre) ip (t :: rest) =
          runRL (checkRateLimit (entriesFor ip pre) ip t).2 ip rest := rfl
      rw [hr, hstep]
      show runRL (entriesFor ip (pre ++ [t])) ip rest = entriesFor ip (pre ++ t :: rest)
      rw [ihx.1, hre]
    · have ha : allAdmitted (entriesFor ip pre) ip (t :: rest) =
          ((checkRateLimit (entriesFor ip pre) ip t).1 &&
            allAdmitted (checkRateLimit (entriesFor ip pre) ip t).2 ip rest) := rfl
      rw [ha, hstep]
      show (true && allAdmitted (entriesFor ip (pre ++ [t])) ip rest) = true
      rw [Bool.true_and]
      exact ihx.2

/-- C4 (amended): for a fixed client, 100 admitted calls at pairwise
distinct timestamps within one window make the next call return `false`;
once the window has advanced past all of them, a call is admitted again.
(With coinciding timestamps the `Map` key collides and the claim fails,
see the counterexample.) -/
theorem rateLimit_window_monotonicity (ip : String) (ts : List Int) (t : Int)
    (hsorted : List.Pairwise (fun a b => a < b) ts) (hlen : ts.length = 100)
    (hwin : ∀ s ∈ ts, t - RATE_LIMIT_WINDOW < s ∧ s ≤ t) :
    allAdmitted [] ip ts = true ∧
    (checkRateLimit (runRL [] ip ts) ip t).1 = false ∧
    (∀ u, (∀ s ∈ ts, s < u - RATE_LIMIT_WINDOW) →
      (checkRateLimit (runRL [] ip ts) ip u).1 = true) := by
  have hwin2 : ∀ x ∈ ts, ∀ s ∈ ts, x - RATE_LIMIT_WINDOW < s := by
    intro x hx s hs
    have h1 := (hwin x hx).2
    have h2 := (hwin s hs).1
    omega
  have hinv := runRL_invariant ip ts [] (by simpa using hsorted)
    (by simpa using hwin2) (by simp [hlen])
  have hrun : runRL [] ip ts = entriesFor ip ts := by
    have h1 := hinv.1
    simpa [entriesFor] using h1
  refine ⟨?_, ?_, ?_⟩
  · have h2 := hinv.2
    simpa [entriesFor] using h2
  · rw [hrun, checkRateLimit_full ip ts t (fun s hs => (hwin s hs).1) (by omega)]
  · intro u hu
    rw [hrun]
    exact checkRateLimit_expired ip ts u hu

/-- C4 witness: 100 admitted calls at the distinct times 1..100 block the
next call at time 100, and time 99999999 is admitted again. -/
theorem rateLimit_window_monotonicity_witness :
    allAdmitted [] "1.2.3.4" ((List.range 100).map (fun n => (n : Int) + 1)) = true ∧
    (checkRateLimit (runRL [] "1.2.3.4" ((List.range 100).map (fun n => (n : Int) + 1)))
        "1.2.3.4" 100).1 = false ∧
    (checkRateLimit (runRL [] "1.2.3.4" ((List.range 100).map (fun n => (n : Int) + 1)))
        "1.2.3.4" 99999999).1 = true := by
  have h := rateLimit_window_monotonicity "1.2.3.4"
    ((List.range 100).map (fun n => (n : Int) + 1)) 100 (by decide) (by decide) (by decide)
  exact ⟨h.1, h.2.1, h.2.2 99999999 (by decide)⟩

/-- C4 counterexample: 100 admitted calls can all share one millisecond, in
which case their `Map` keys coincide, only one entry survives, and the next
call is admitted — the claimed `false` does not occur. -/
theorem rateLimit_sameMs_counterexample :
    allAdmitted [] "9.9.9.9" (List.replicate 100 1000) = true ∧
    (List.replicate 100 (1000 : Int)).length = 100 ∧
    (checkRateLimit (runRL [] "9.9.9.9" (List.replicate 100 1000)) "9.9.9.9" 1000).1
      = true := by decide

/-- C9 (amended): admitted calls for one client at pairwise distinct
timestamps within a window record pairwise distinct entries — k such calls
leave exactly k entries with distinct keys; but two admitted calls in the
same millisecond share their key and the later overwrites the earlier (see
the counterexample). -/
theorem rateLimit_distinct_timestamps_entries (ip : String) (ts : List Int)
    (hsorted : List.Pairwise (fun a b => a < b) ts)
    (hwin : ∀ u ∈ ts, ∀ s ∈ ts, u - RATE_LIMIT_WINDOW < s)
    (hlen : ts.length ≤ 100) :
    allAdmitted [] ip ts = true ∧
    runRL [] ip ts = entriesFor ip ts ∧
    (runRL [] ip ts).length = ts.length ∧
    ((runRL [] ip ts).map Prod.fst).Nodup := by
  have hinv := runRL_invariant ip ts [] (by simpa using hsorted)
    (by simpa using hwin) (by simpa using hlen)
  have hrun : runRL [] ip ts = entriesFor ip ts := by
    have h1 := hinv.1
    simpa [entriesFor] using h1
  refine ⟨?_, hrun, ?_, ?_⟩
  · have h2 := hinv.2
    simpa [entriesFor] using h2
  · rw [hrun]
    unfold entriesFor
    rw [List.length_map]
  · rw [hrun]
    unfold entriesFor
    rw [List.map_map]
    have hts : ts.Nodup := hsorted.imp (fun hab => Int.ne_of_lt hab)
    exact hts.map (fun a b hab => rlKey_inj ip hab)

/-- C9 witness: three admitted calls at times 1, 2, 3 leave three entries
with pairwise distinct keys. -/
theorem rateLimit_distinct_timestamps_witness :
    allAdmitted [] "7.7.7.7" [1, 2, 3] = true ∧
    runRL [] "7.7.7.7" [1, 2, 3] = entriesFor "7.7.7.7" [1, 2, 3] ∧
    (runRL [] "7.7.7.7" [1, 2, 3]).length = 3 ∧
    ((runRL [] "7.7.7.7" [1, 2, 3]).map Prod.fst).Nodup := by
  have h := rateLimit_distinct_timestamps_entries "7.7.7.7" [1, 2, 3]
    (by decide) (by decide) (by decide)
  exact ⟨h.1, h.2.1, h.2.2.1, h.2.2.2⟩

/-- C9 counterexample: two admitted calls in the same millisecond produce
one surviving entry, not two — the key `ip + "_" + now` collides and
`Map.set` overwrites. -/
theorem rateLimit_overwrite_counterexample :
    (checkRateLimit [] "1.2.3.4" 5).1 = true ∧
    (checkRateLimit (checkRateLimit [] "1.2.3.4" 5).2 "1.2.3.4" 5).1 = true ∧
    ((checkRateLimit (checkRateLimit [] "1.2.3.4" 5).2 "1.2.3.4" 5).2).length = 1 := by
  decide

/-- C10: a denied `checkRateLimit` call records nothing — the map it leaves
behind is exactly the input map with entries older than the window purged. -/
theorem denied_check_records_nothing (m : RLMap) (ip : String) (now : Int)
    (h : (checkRateLimit m ip now).1 = false) :
    (checkRateLimit m ip now).2 = purgeOld m (now - RATE_LIMIT_WINDOW) := by
  unfold checkRateLimit
  unfold checkRateLimit at h
  split
  next hcond => rfl
  next hcond =>
    rw [if_neg hcond] at h
    simp at h

/-- C10 witness: with 100 live entries the call is denied and leaves the
purged map unchanged. -/
theorem denied_check_records_nothing_witness :
    (checkRateLimit wDenyMap "9.9.9.9" 200).1 = false ∧
    (checkRateLimit wDenyMap "9.9.9.9" 200).2 =
      purgeOld wDenyMap (200 - RATE_LIMIT_WINDOW) :=
  ⟨by decide, denied_check_records_nothing wDenyMap "9.9.9.9" 200 (by decide)⟩

/-! The bulk endpoint preserves length and input order. -/

theorem attachEmails_spec (emails : List String) : ∀ (rs : List ValidationResult) (i : Nat),
    rs.length + i = emails.length →
    (attachEmails emails rs i).length = rs.length ∧
    (attachEmails emails rs i).map (fun r => r.email) = emails.drop i := by
  intro rs
  induction rs with
  | nil =>
    intro i h
    refine ⟨rfl, ?_⟩
    simp only [attachEmails, List.map_nil]
    exact (List.drop_eq_nil_of_le (by simp at h; omega)).symm
  | cons r rs ih =>
    intro i h
    have hi : i < emails.length := by simp at h; omega
    have hnext : rs.length + (i + 1) = emails.length := by simp at h ⊢; omega
    constructor
    · simp only [attachEmails, List.length_cons, (ih (i + 1) hnext).1]
    · simp only [attachEmails, List.map_cons]
      rw [(ih (i + 1) hnext).2, List.drop_eq_getElem_cons hi]
      congr 1
      simp [List.getD, List.getElem?_eq_getElem hi]

/-- C5: for at most 100 emails the bulk route returns one result per input,
and the result at each index carries back exactly the input email at that
index. -/
theorem bulk_results_aligned (emails : List String)
    (run : String → Except String ValidationResult) (h : emails.length ≤ 100) :
    ∃ res, validateBulk emails run = Except.ok res ∧
      res.length = emails.length ∧ res.map (fun r => r.email) = emails := by
  unfold validateBulk
  rw [if_neg (by omega)]
  have hlen : (emails.map (fun e =>
      match run e with
      | Except.ok r => r
      | Except.error msg => systemErrorRecord msg)).length + 0 = emails.length := by
    simp
  have hsp := attachEmails_spec emails _ 0 hlen
  refine ⟨_, rfl, ?_, ?_⟩
  · rw [hsp.1]; simp
  · rw [hsp.2]; rfl

/-- C5 witness: a two-email batch (with every worker rejecting) comes back
as two records carrying the inputs in order. -/
theorem bulk_results_aligned_witness :
    ∃ res, validateBulk ["u@a.com", "v@b.org"] wRun = Except.ok res ∧
      res.length = 2 ∧ res.map (fun r => r.email) = ["u@a.com", "v@b.org"] := by
  obtain ⟨res, h1, h2, h3⟩ := bulk_results_aligned ["u@a.com", "v@b.org"] wRun (by decide)
  exact ⟨res, h1, by rw [h2]; rfl, h3⟩

/-! DMARC parsing matches the specification clause by clause, and DMARC
outcomes never decide validity. -/

theorem findDmarc_eq_spec : ∀ records : List (List String),
    findDmarcRecord records =
      ((records.map String.join).find? (fun r => jsStartsWith r "v=DMARC1")).map
        parseDmarcTags := by
  intro records
  induction records with
  | nil => rfl
  | cons rs rest ih =>
    unfold findDmarcRecord
    simp only [List.map_cons, List.find?]
    by_cases hs : jsStartsWith (String.join rs) "v=DMARC1"
    · simp [hs]
    · simp [hs, ih]

/-- C8: `getDmarcRecord` agrees with the spec-side parser (join segments
without separator, first record starting `v=DMARC1`, split on `;`, trim,
extract `p=`/`sp=`/`pct=`/`rf=` with defaults `none` and 100); a failed
lookup yields `null`; and the DMARC outcome never changes the verification
verdict. -/
theorem dmarc_parser_spec :
    (∀ lookup : Except Unit (List (List String)),
      getDmarcRecord lookup = lookupDmarcSpec lookup) ∧
    getDmarcRecord (Except.error ()) = none ∧
    (∀ (email : String) (rl : Bool) (exc : Option String) (smtp : SmtpVerifyResult)
        (dl1 dl2 : Except Unit (List (List String))),
      (EmailVerifier_verify email rl dl1 exc smtp).valid =
        (EmailVerifier_verify email rl dl2 exc smtp).valid) := by
  refine ⟨?_, rfl, ?_⟩
  · intro lookup
    cases lookup with
    | error e => rfl
    | ok records => exact findDmarc_eq_spec records
  · intro email rl exc smtp dl1 dl2
    unfold EmailVerifier_verify
    by_cases hrl : rl
    · by_cases hre : emailRegexTest email
      · cases exc with
        | some msg => simp [hrl, hre]
        | none =>
          by_cases hca : (smtp.isCatchAll && isCorporateDomain (jsDomain email)) = true
          · simp [hrl, hre, hca]
          · by_cases hv : smtp.valid
            · simp [hrl, hre, hca, hv]
            · simp [hrl, hre, hca, hv]
      · simp [hrl, hre]
    · simp [hrl]
